import Mathlib

/-!
Verification of the PoolListener repository's pool-discovery-and-liquidity-tracking
core, as a shallow embedding in Lean 4.

The embedding translates:
* `src/src/database/manager.py`   (class `DatabaseManager`): the `discovered_pools`
  SQLite table and its operations `save_pool` (INSERT OR REPLACE keyed by the
  UNIQUE `address` column), `mark_pool_tradeable` (UPDATE), and
  `get_non_tradeable_pools` (SELECT WHERE is_tradeable = FALSE).
* `src/src/blockchain/web3_client.py` (class `Web3Client`): `check_pool_liquidity`,
  including its tenacity `@retry(stop=stop_after_attempt(3), ...)` decorator.
* `src/src/blockchain/pool_monitor.py` (class `PoolMonitor`): `_process_pool_event`,
  `_involves_target_token`, `_check_single_pool`, `_check_existing_pools`, and the
  chunked block scanner `_check_new_pools`.
* `poolListener.py` (the monolithic variant): its `DatabaseManager.save_pool`,
  `check_pool_liquidity_with_retry` (which re-raises on failure, so the retry
  decorator is active), and the nested `check_single_pool` of
  `check_existing_pools_parallel`.

Modelling conventions:
* SQLite tables are lists of rows; `INSERT OR REPLACE` deletes every row that
  conflicts on the UNIQUE key and appends a fresh row whose unspecified columns
  take their declared defaults (`CURRENT_TIMESTAMP` is modelled by an explicit
  `now : Nat` parameter threaded to each write).
* Timestamps are `Nat`; addresses and token identifiers are `String`; Python
  `str.lower()` (applied to ASCII hex addresses) is `pyLower`.
* The outcome of the external `liquidity()` contract call is an oracle:
  `Option Nat`, where `none` means the call raised an exception, and per-attempt
  oracles `Nat → Option Nat` feed the retry decorators.
* Network sends are recorded in the state: `sent` is the list of
  `send_notification` dispatch calls, and (for the monolithic variant, whose
  `NotificationManager.send_notification` writes a row to the `notifications`
  table) `log` is the notification audit log.  The modular rechecker's
  dispatch attempt via `asyncio.create_task` from an executor worker thread
  deterministically raises and is swallowed, so it never reaches `sent` — see
  `check_single_pool`.
* Concurrency (the bounded worker pool over `get_non_tradeable_pools`) is
  modelled as a sequential interleaving: the work list is the snapshot taken at
  cycle start, exactly as in the source, and each worker's read-check-write runs
  atomically.  The `ORDER BY discovered_at DESC` of the work list is modelled by
  an insertion sort (a permutation of the filtered rows).
-/

namespace PoolListener

/-- Python's per-character `str.lower()` for the ASCII range (addresses are
`0x`-prefixed hex strings, so this is exact on every input the program uses). -/
def pyLowerChar (c : Char) : Char :=
  if 65 ≤ c.toNat ∧ c.toNat ≤ 90 then Char.ofNat (c.toNat + 32) else c

/-- Python's `str.lower()` on ASCII strings. -/
def pyLower (s : String) : String :=
  String.mk (s.data.map pyLowerChar)

/-- Row of the `discovered_pools` table created by
`DatabaseManager.init_database` in `src/src/database/manager.py` (the
AUTOINCREMENT `id` surrogate is not modelled; rows are identified by the
UNIQUE `address` column). -/
structure PoolRow where
  address : String
  token0 : String
  token1 : String
  fee : Nat
  initial_liquidity : Nat
  current_liquidity : Nat
  is_tradeable : Bool
  discovered_at : Nat
  last_checked : Nat
  last_updated : Nat
deriving Repr, DecidableEq

/-- The `pool_data` dict assembled by `PoolMonitor._process_pool_event`. -/
structure PoolData where
  address : String
  token0 : String
  token1 : String
  fee : Nat
  liquidity : Nat
deriving Repr, DecidableEq

/-- The `discovered_pools` table. -/
abbrev Table := List PoolRow

/-- `DatabaseManager.save_pool` (`src/src/database/manager.py`, lines 95-118):
`INSERT OR REPLACE INTO discovered_pools (address, token0, token1, fee,
initial_liquidity, current_liquidity, is_tradeable) VALUES (...)` with
`is_tradeable := pool_data['liquidity'] >= 1000` (the literal constant in the
source, commented `# Default threshold`).  SQLite's REPLACE conflict resolution
deletes every row conflicting on the UNIQUE `address` and inserts a fresh row;
the columns absent from the INSERT column list (`discovered_at`, `last_checked`,
`last_updated`) take their `DEFAULT CURRENT_TIMESTAMP` values, modelled by
`now`. -/
def save_pool (now : Nat) (d : PoolData) (t : Table) : Table :=
  t.filter (fun r => r.address != d.address) ++
    [{ address := d.address
       token0 := d.token0
       token1 := d.token1
       fee := d.fee
       initial_liquidity := d.liquidity
       current_liquidity := d.liquidity
       is_tradeable := decide (d.liquidity ≥ 1000)
       discovered_at := now
       last_checked := now
       last_updated := now }]

/-- `DatabaseManager.mark_pool_tradeable` (lines 135-152): `UPDATE
discovered_pools SET is_tradeable = TRUE, current_liquidity = ?, last_updated =
CURRENT_TIMESTAMP WHERE address = ?`. -/
def mark_pool_tradeable (now : Nat) (pool_address : String) (liquidity : Nat)
    (t : Table) : Table :=
  t.map fun r =>
    if r.address == pool_address then
      { r with is_tradeable := true, current_liquidity := liquidity,
               last_updated := now }
    else r

/-- `DatabaseManager.get_non_tradeable_pools` (lines 120-133): `SELECT * FROM
discovered_pools WHERE is_tradeable = FALSE ORDER BY discovered_at DESC`; the
ordering is modelled by an insertion sort on `discovered_at` descending (a
permutation of the filtered rows). -/
def get_non_tradeable_pools (t : Table) : List PoolRow :=
  List.insertionSort (fun a b => b.discovered_at ≤ a.discovered_at)
    (t.filter (fun r => !r.is_tradeable))

/-- The already-validated configuration object (`src/src/config/settings.py`),
restricted to the fields the monitored core reads. -/
structure Settings where
  token_address : String
  min_liquidity_threshold : Nat
deriving Repr, DecidableEq

/-- A `PoolCreated` event as decoded by `_process_pool_event` from
`event['args']`. -/
structure CreationEvent where
  token0 : String
  token1 : String
  fee : Nat
  pool : String
deriving Repr, DecidableEq

/-- One `notification_manager.send_notification(pool_address, token0, token1,
fee, liquidity, notification_type)` dispatch call. -/
structure SentNotif where
  pool_address : String
  token0 : String
  token1 : String
  fee : Nat
  liquidity : Nat
  notification_type : String
deriving Repr, DecidableEq

/-- `Web3Client.check_pool_liquidity` body (`src/src/blockchain/web3_client.py`,
lines 77-93): the `try` block reads the pool's `liquidity()` view function
(oracle `outcome`; `none` models the call raising) and returns
`(liquidity >= min_threshold, liquidity)`; the blanket `except` returns
`(False, 0)`.  The function never raises. -/
def check_pool_liquidity (outcome : Option Nat) (min_threshold : Nat) :
    Bool × Nat :=
  match outcome with
  | some liquidity => (decide (liquidity ≥ min_threshold), liquidity)
  | none => (false, 0)

/-- The tenacity retry loop of `@retry(stop=stop_after_attempt(n), ...)`:
attempts are numbered from 0; an attempt that raises one of the retried
exception types (`Except.error`) is retried until `n` attempts have run, after
which the failure surfaces.  Returns the final result and the number of
attempts executed. -/
def retryAux {E A : Type} (body : Nat → Except E A) : Nat → Nat → Except E A × Nat
  | 0, i => (body i, i + 1)
  | n + 1, i =>
    match body i with
    | Except.ok a => (Except.ok a, i + 1)
    | Except.error _ => retryAux body n (i + 1)

/-- `stop_after_attempt(attempts)` wrapper around `retryAux`. -/
def retryStopAfterAttempt {E A : Type} (attempts : Nat) (body : Nat → Except E A) :
    Except E A × Nat :=
  retryAux body (attempts - 1) 0

/-- The decorated `Web3Client.check_pool_liquidity` as its callers invoke it:
`@retry(stop=stop_after_attempt(3), ...)` wrapping a body that catches every
exception internally, so each attempt returns normally (`Except.ok`).
`outcomes i` is the contract-call oracle for attempt `i`. -/
def check_pool_liquidity_retried (outcomes : Nat → Option Nat)
    (min_threshold : Nat) : Except Unit (Bool × Nat) × Nat :=
  retryStopAfterAttempt 3
    (fun i => Except.ok (check_pool_liquidity (outcomes i) min_threshold))

/-- The state threaded through `PoolMonitor`: the `discovered_pools` table and
the list of notification dispatches performed so far. -/
structure MonitorState where
  pools : Table
  sent : List SentNotif
deriving Repr, DecidableEq

/-- `NotificationManager.send_notification` as observed by the monitor: the
dispatch is appended to the record of sent notifications (rendering and
delivery are external collaborators). -/
def send_notification (pool_address token0 token1 : String) (fee liquidity : Nat)
    (notification_type : String) (st : MonitorState) : MonitorState :=
  { st with sent := st.sent ++
      [{ pool_address := pool_address, token0 := token0, token1 := token1,
         fee := fee, liquidity := liquidity,
         notification_type := notification_type }] }

/-- `PoolMonitor._involves_target_token` (`src/src/blockchain/pool_monitor.py`,
lines 270-273): `token0.lower() == self.settings.token_address.lower() or
token1.lower() == self.settings.token_address.lower()`. -/
def involves_target_token (s : Settings) (token0 token1 : String) : Bool :=
  pyLower token0 == pyLower s.token_address ||
    pyLower token1 == pyLower s.token_address

/-- `PoolMonitor._process_pool_event` (lines 121-188).  `probe` is the
contract-call oracle by pool address (`none` = the underlying call raised, in
which case the decorated `check_pool_liquidity` returns `(False, 0)`). -/
def process_pool_event (s : Settings) (probe : String → Option Nat) (now : Nat)
    (ev : CreationEvent) (st : MonitorState) : MonitorState :=
  let token0 := pyLower ev.token0
  let token1 := pyLower ev.token1
  let pool_address := pyLower ev.pool
  if !(involves_target_token s token0 token1) then st
  else
    let res := check_pool_liquidity (probe pool_address) s.min_liquidity_threshold
    let has_liquidity := res.1
    let liquidity_amount := res.2
    let pool_data : PoolData :=
      { address := pool_address, token0 := token0, token1 := token1,
        fee := ev.fee, liquidity := liquidity_amount }
    let st' : MonitorState := { st with pools := save_pool now pool_data st.pools }
    let notification_type := if has_liquidity then "liquidity_added" else "pool_created"
    send_notification pool_address token0 token1 ev.fee liquidity_amount
      notification_type st'

/-- `for event in events: await self._process_pool_event(event)`. -/
def process_events (s : Settings) (probe : String → Option Nat) (now : Nat)
    (evs : List CreationEvent) (st : MonitorState) : MonitorState :=
  evs.foldl (fun acc ev => process_pool_event s probe now ev acc) st

/-- `PoolMonitor._check_single_pool` (lines 222-268), run for one snapshot row
`pd` of the rescan work list: probe the pool's liquidity (the decorated
`check_pool_liquidity`, which yields `(False, 0)` on failure); if the probe
clears the threshold and the snapshot says the pool was not yet tradeable,
`mark_pool_tradeable` commits to the database (line 242), and then line 265
attempts `asyncio.create_task(send_notification())`.  But `_check_single_pool`
executes inside a `ThreadPoolExecutor` worker thread (scheduled via
`loop.run_in_executor`, lines 204-210), and `asyncio.create_task` requires a
running event loop in the *current* thread, so it deterministically raises
`RuntimeError: no running event loop`; the enclosing `except Exception`
(line 267) swallows and logs it.  The `liquidity_added` notification coroutine
therefore never runs: the database write survives, `sent` is unchanged. -/
def check_single_pool (s : Settings) (probe : String → Option Nat) (now : Nat)
    (pd : PoolRow) (st : MonitorState) : MonitorState :=
  let res := check_pool_liquidity (probe pd.address) s.min_liquidity_threshold
  let has_liquidity := res.1
  let current_liquidity := res.2
  if has_liquidity && !pd.is_tradeable then
    { st with pools := mark_pool_tradeable now pd.address current_liquidity st.pools }
  else st

/-- `PoolMonitor._check_existing_pools` (lines 190-220): take the snapshot
`get_non_tradeable_pools()` at cycle start, then run `_check_single_pool` on
each snapshot row (the bounded thread pool is modelled as a sequential
interleaving of the atomic per-pool steps). -/
def check_existing_pools (s : Settings) (probe : String → Option Nat) (now : Nat)
    (st : MonitorState) : MonitorState :=
  (get_non_tradeable_pools st.pools).foldl
    (fun acc pd => check_single_pool s probe now pd acc) st

/-- One rescan cycle's environment: the contract-call oracle and wall-clock
time for that cycle. -/
structure Cycle where
  probe : String → Option Nat
  now : Nat

/-- A sequence of rescan cycles of the monitoring loop. -/
def run_recheck_cycles (s : Settings) (cs : List Cycle) (st : MonitorState) :
    MonitorState :=
  cs.foldl (fun acc c => check_existing_pools s c.probe c.now acc) st

/-- `MAX_BLOCKS_PER_QUERY = 1000` in `PoolMonitor._check_new_pools`. -/
def MAX_BLOCKS_PER_QUERY : Nat := 1000

/-- Python's `range(start, stop, step)` for a positive step. -/
def pyRange (start stop step : Nat) : List Nat :=
  if _h : start < stop ∧ 0 < step then
    start :: pyRange (start + step) stop step
  else
    []
termination_by stop - start
decreasing_by omega

/-- Observable actions of one `_check_new_pools` scan, in execution order:
an eth_getLogs chunk query (`create_event_filter` + `get_events`), the
processing of one creation event, and an assignment to
`self.latest_processed_block`. -/
inductive ScanAction where
  | query (fromBlock toBlock : Nat)
  | processEvt (ev : CreationEvent)
  | setCursor (b : Nat)
deriving Repr, DecidableEq

/-- The chunk loop of `_check_new_pools` (lines 80-102): for each
`chunk_start in range(from_block, current_block + 1, MAX_BLOCKS_PER_QUERY)`
the chunk `[chunk_start, min(chunk_start + MAX_BLOCKS_PER_QUERY - 1,
current_block)]` is queried, its events are processed, and then
`self.latest_processed_block = chunk_end`.  `getEvents f t` is the oracle for
the events returned for block range `[f, t]`.  Returns the final monitor
state, the final cursor, and the trace of actions in execution order. -/
def run_chunks (s : Settings) (getEvents : Nat → Nat → List CreationEvent)
    (probe : String → Option Nat) (now : Nat) :
    List (Nat × Nat) → MonitorState → Nat → MonitorState × Nat × List ScanAction
  | [], st, cursor => (st, cursor, [])
  | (chunk_start, chunk_end) :: rest, st, _ =>
    let evs := getEvents chunk_start chunk_end
    let st' := process_events s probe now evs st
    let res := run_chunks s getEvents probe now rest st' chunk_end
    (res.1, res.2.1,
      ScanAction.query chunk_start chunk_end ::
        (evs.map ScanAction.processEvt ++ ScanAction.setCursor chunk_end :: res.2.2))

/-- The chunk list built by the `range` loop of `_check_new_pools`. -/
def chunk_list (from_block current_block : Nat) : List (Nat × Nat) :=
  (pyRange from_block (current_block + 1) MAX_BLOCKS_PER_QUERY).map
    (fun chunk_start =>
      (chunk_start, min (chunk_start + MAX_BLOCKS_PER_QUERY - 1) current_block))

/-- `PoolMonitor._check_new_pools` (lines 59-119) on its non-exceptional path:
if `current_block <= self.latest_processed_block` the scan is a no-op;
otherwise the pending range `[latest_processed_block + 1, current_block]` is
processed, chunked when it exceeds `MAX_BLOCKS_PER_QUERY` blocks, with the
cursor assigned after each chunk's events (or, on the small-range path, once
after all events).  Returns the final state, the final
`latest_processed_block`, and the action trace. -/
def check_new_pools (s : Settings) (getEvents : Nat → Nat → List CreationEvent)
    (probe : String → Option Nat) (now : Nat) (current_block : Nat)
    (st : MonitorState) (latest_processed_block : Nat) :
    MonitorState × Nat × List ScanAction :=
  if current_block ≤ latest_processed_block then (st, latest_processed_block, [])
  else
    let from_block := latest_processed_block + 1
    let blocks_to_check := current_block - from_block + 1
    if blocks_to_check > MAX_BLOCKS_PER_QUERY then
      run_chunks s getEvents probe now (chunk_list from_block current_block) st
        latest_processed_block
    else
      let evs := getEvents from_block current_block
      (process_events s probe now evs st, current_block,
        ScanAction.query from_block current_block ::
          (evs.map ScanAction.processEvt ++ [ScanAction.setCursor current_block]))

/-- The chunk queries issued by a scan, in order. -/
def queries (tr : List ScanAction) : List (Nat × Nat) :=
  tr.filterMap fun a =>
    match a with
    | ScanAction.query f t => some (f, t)
    | _ => none

/-- The successive values assigned to `self.latest_processed_block`, in order. -/
def cursor_writes (tr : List ScanAction) : List Nat :=
  tr.filterMap fun a =>
    match a with
    | ScanAction.setCursor b => some b
    | _ => none

/-- The value of `self.latest_processed_block` after executing a trace prefix,
starting from `init`. -/
def cursor_after (init : Nat) (tr : List ScanAction) : Nat :=
  tr.foldl
    (fun c a =>
      match a with
      | ScanAction.setCursor b => b
      | _ => c)
    init

/-- Specification of the chunk list walked by the scanner's `range` loop over
a pending range ending at `cb`: the next chunk starts exactly at the running
lower bound `fb`, ends at `min(fb + MAX_BLOCKS_PER_QUERY - 1, cb)`, stays
within the range, and the remaining chunks cover the rest; an empty list is
allowed only once the range is exhausted. -/
def ChunkChain (cb : Nat) : Nat → List (Nat × Nat) → Prop
  | fb, [] => cb < fb
  | fb, c :: rest =>
      c.1 = fb ∧ c.2 = min (fb + MAX_BLOCKS_PER_QUERY - 1) cb ∧ fb ≤ cb ∧
        ChunkChain cb (c.2 + 1) rest

/-- Helper for stating claims: the row of the UNIQUE `address` key, i.e.
`SELECT * FROM discovered_pools WHERE address = ?` (first match). -/
def findRow (t : Table) (a : String) : Option PoolRow :=
  t.find? (fun r => r.address == a)

/-- Helper for stating claims: the `is_tradeable` flag stored for address `a`
(false when no row exists). -/
def tradeableIn (t : Table) (a : String) : Bool :=
  ((findRow t a).map (fun r => r.is_tradeable)).getD false

/-- Helper for stating claims: the `address` column of the table. -/
def addrs (t : Table) : List String :=
  t.map (fun r => r.address)

/-- Helper for stating claims: the notifications dispatched for address `a`. -/
def notifs_for (st : MonitorState) (a : String) : List SentNotif :=
  st.sent.filter (fun n => n.pool_address == a)

/-- Helper for stating claims: how many `liquidity_added` (tradeable-milestone)
notifications have been dispatched for address `a`. -/
def tradeable_notifs (st : MonitorState) (a : String) : Nat :=
  ((notifs_for st a).filter
      (fun n => n.notification_type == "liquidity_added")).length

end PoolListener

namespace PoolListener.PL

/-!
The monolithic variant (`poolListener.py`).  Its `pools` table has a different
schema (`address TEXT PRIMARY KEY`, no `initial_liquidity`,
`last_notification_sent`, `notification_count`), its `save_pool` computes
`is_tradeable` from the configured `settings.min_liquidity_threshold`, and its
`check_pool_liquidity_with_retry` re-raises on failure so the tenacity retry
decorator actually retries, and exhaustion surfaces an exception to the caller.
-/

/-- Row of the monolith's `pools` table (`poolListener.py`, lines 205-218). -/
structure PoolRow where
  address : String
  token0 : String
  token1 : String
  fee : Nat
  current_liquidity : Nat
  discovered_at : Nat
  last_checked : Nat
  last_notification_sent : Option Nat
  is_tradeable : Bool
  notification_count : Nat
deriving Repr, DecidableEq

/-- The monolith's `pools` table. -/
abbrev Table := List PL.PoolRow

/-- The monolith's `DatabaseManager.save_pool` (lines 258-274): `INSERT OR
REPLACE INTO pools (address, token0, token1, fee, current_liquidity,
last_checked, is_tradeable) VALUES (...)` with `is_tradeable :=
pool_data['liquidity'] >= settings.min_liquidity_threshold` and `last_checked =
datetime.now()`; the absent columns (`discovered_at`,
`last_notification_sent`, `notification_count`) take their defaults. -/
def save_pool (s : Settings) (now : Nat) (d : PoolData) (t : PL.Table) : PL.Table :=
  t.filter (fun r => r.address != d.address) ++
    [{ address := d.address
       token0 := d.token0
       token1 := d.token1
       fee := d.fee
       current_liquidity := d.liquidity
       discovered_at := now
       last_checked := now
       last_notification_sent := none
       is_tradeable := decide (d.liquidity ≥ s.min_liquidity_threshold)
       notification_count := 0 }]

/-- The monolith's `DatabaseManager.mark_pool_tradeable` (lines 283-291):
`UPDATE pools SET is_tradeable = 1, current_liquidity = ?, last_checked = ?
WHERE address = ?`. -/
def mark_pool_tradeable (now : Nat) (pool_address : String) (liquidity : Nat)
    (t : PL.Table) : PL.Table :=
  t.map fun r =>
    if r.address == pool_address then
      { r with is_tradeable := true, current_liquidity := liquidity,
               last_checked := now }
    else r

/-- An appended row of the monolith's `notifications` audit table (the
delivery-outcome columns `success`, `error_message`, `channels` summarize the
external delivery collaborator and are not modelled). -/
structure LogEntry where
  pool_address : String
  notification_type : String
deriving Repr, DecidableEq

/-- The monolith's observable state: the `pools` table, the dispatched
notifications, and the `notifications` audit log (the monolith's
`NotificationManager.send_notification` appends one audit row per dispatch via
`db.log_notification`). -/
structure ListenerState where
  pools : PL.Table
  sent : List SentNotif
  log : List PL.LogEntry
deriving Repr, DecidableEq

/-- The monolith's `NotificationManager.send_notification`: one dispatch plus
one audit-log row. -/
def send_notification (pool_address token0 token1 : String) (fee liquidity : Nat)
    (notification_type : String) (st : PL.ListenerState) : PL.ListenerState :=
  { st with
    sent := st.sent ++
      [{ pool_address := pool_address, token0 := token0, token1 := token1,
         fee := fee, liquidity := liquidity,
         notification_type := notification_type }],
    log := st.log ++
      [{ pool_address := pool_address, notification_type := notification_type }] }

/-- `check_pool_liquidity_with_retry` (`poolListener.py`, lines 344-374): the
body reads `liquidity()` and returns `(liquidity >= threshold, liquidity)`, but
on exception it re-raises (`raise`), so the tenacity decorator retries up to 3
attempts and then the failure propagates to the caller as an exception
(`Except.error`), distinguishable from any normal return. -/
def check_pool_liquidity_with_retry (outcomes : Nat → Option Nat)
    (min_threshold : Nat) : Except Unit (Bool × Nat) :=
  (retryStopAfterAttempt 3
      (fun i =>
        match outcomes i with
        | some liquidity => Except.ok (decide (liquidity ≥ min_threshold), liquidity)
        | none => Except.error ())).1

/-- The nested `check_single_pool` of `check_existing_pools_parallel`
(`poolListener.py`, lines 610-642): probe via
`check_pool_liquidity_with_retry`; an exception (retry budget exhausted) is
caught by the surrounding `try`/`except`, which logs and returns `False`
without touching the database or the notification channels; on a successful
probe that clears the threshold for a snapshot row not yet tradeable, mark the
pool tradeable and dispatch a `liquidity_added` notification, returning
`True`. -/
def check_single_pool (s : Settings) (outcomes : Nat → Option Nat) (now : Nat)
    (pool_data : PL.PoolRow) (st : PL.ListenerState) : Bool × PL.ListenerState :=
  match check_pool_liquidity_with_retry outcomes s.min_liquidity_threshold with
  | Except.error _ => (false, st)
  | Except.ok res =>
    let has_liquidity := res.1
    let current_liquidity := res.2
    if has_liquidity && !pool_data.is_tradeable then
      (true,
        PL.send_notification pool_data.address pool_data.token0 pool_data.token1
          pool_data.fee current_liquidity "liquidity_added"
          { st with
            pools := PL.mark_pool_tradeable now pool_data.address
              current_liquidity st.pools })
    else (false, st)

end PoolListener.PL

namespace PoolListener

/-! Basic lemmas about the embedding. -/

theorem pyLowerChar_idem (c : Char) : pyLowerChar (pyLowerChar c) = pyLowerChar c := by
  unfold pyLowerChar
  by_cases h : 65 ≤ c.toNat ∧ c.toNat ≤ 90
  · rw [if_pos h]
    have hv : (c.toNat + 32).isValidChar := by
      constructor
      omega
    have ht : (Char.ofNat (c.toNat + 32)).toNat = c.toNat + 32 := by
      rw [Char.ofNat, dif_pos hv]
      simp [Char.ofNatAux, Char.toNat, UInt32.toNat, BitVec.toNat_ofNatLt]
    rw [if_neg]
    rw [ht]
    omega
  · rw [if_neg h, if_neg h]

theorem pyLower_idem (s : String) : pyLower (pyLower s) = pyLower s := by
  simp [pyLower, List.map_map, Function.comp_def, pyLowerChar_idem]

theorem pyRange_cons (start stop step : Nat) (h1 : start < stop) (h2 : 0 < step) :
    pyRange start stop step = start :: pyRange (start + step) stop step := by
  rw [pyRange, dif_pos ⟨h1, h2⟩]

theorem pyRange_nil (start stop step : Nat) (h1 : ¬ start < stop) :
    pyRange start stop step = [] := by
  rw [pyRange, dif_neg]
  intro hc
  exact h1 hc.1

theorem save_pool_absorb (now1 now2 : Nat) (d : PoolData) (t : Table) :
    save_pool now2 d (save_pool now1 d t) = save_pool now2 d t := by
  simp [save_pool, List.filter_append, List.filter_filter]

/-- C10: `Web3Client.check_pool_liquidity` is total: on any failure of the
underlying contract call it returns `(False, 0)` — for every positive
threshold the very value of a successful read of zero liquidity — so its
tenacity retry decorator (which only re-attempts on a raised exception)
executes exactly one attempt, and on a successful read the returned boolean is
`liquidity >= threshold` and the returned amount is the read liquidity. -/
theorem check_pool_liquidity_total_and_coercion :
    (∀ (outcomes : Nat → Option Nat) (thr : Nat),
        check_pool_liquidity_retried outcomes thr =
          (Except.ok (check_pool_liquidity (outcomes 0) thr), 1)) ∧
    (∀ thr : Nat, check_pool_liquidity none thr = (false, 0)) ∧
    (∀ thr : Nat, 0 < thr →
        check_pool_liquidity none thr = check_pool_liquidity (some 0) thr) ∧
    (∀ liquidity thr : Nat,
        (check_pool_liquidity (some liquidity) thr).1 = decide (liquidity ≥ thr) ∧
        (check_pool_liquidity (some liquidity) thr).2 = liquidity) := by
  refine ⟨?_, ?_, ?_, ?_⟩
  · intro outcomes thr
    rfl
  · intro thr
    rfl
  · intro thr hthr
    simp [check_pool_liquidity]
    omega
  · intro liquidity thr
    exact ⟨rfl, rfl⟩

/-- C10 witness: the sub-conjunct guarded by `0 < thr`, discharged at the
default threshold 1000. -/
theorem check_pool_liquidity_total_and_coercion_witness :
    (0 : Nat) < 1000 ∧
      check_pool_liquidity none 1000 = check_pool_liquidity (some 0) 1000 :=
  ⟨by decide, check_pool_liquidity_total_and_coercion.2.2.1 1000 (by decide)⟩

/-- C2: evaluation of `Web3Client.check_pool_liquidity` at a failing probe
(the `liquidity()` call raises, threshold 1000): the caller receives
`(False, 0)`, literally equal to the result of a successful read of zero
liquidity, and the retry decorator has performed a single attempt — there is
no distinguishable "unknown" sentinel, refuting the claim on the code. -/
theorem probe_failure_coerced_to_zero :
    check_pool_liquidity none 1000 = (false, 0) ∧
    check_pool_liquidity none 1000 = check_pool_liquidity (some 0) 1000 ∧
    (check_pool_liquidity_retried (fun _ => none) 1000).2 = 1 ∧
    (check_pool_liquidity_retried (fun _ => none) 1000).1 =
      Except.ok (false, 0) := by
  refine ⟨rfl, by decide, rfl, rfl⟩

/-- C6: `save_pool` (SQLite `INSERT OR REPLACE` keyed by the UNIQUE address)
is idempotent — a second save of the same pool data leaves the table exactly
in the state of a single save — the saved address occupies exactly one row,
and re-processing the same creation event leaves the pools table identical to
processing it once, so replaying an already-processed range creates no
duplicate pool record. -/
theorem save_pool_idempotent_no_duplicate :
    (∀ (now1 now2 : Nat) (d : PoolData) (t : Table),
        save_pool now2 d (save_pool now1 d t) = save_pool now2 d t) ∧
    (∀ (now : Nat) (d : PoolData) (t : Table),
        ((save_pool now d t).filter (fun r => r.address == d.address)).length = 1) ∧
    (∀ (s : Settings) (probe : String → Option Nat) (now1 now2 : Nat)
        (ev : CreationEvent) (st : MonitorState),
        (process_pool_event s probe now2 ev
            (process_pool_event s probe now1 ev st)).pools =
          (process_pool_event s probe now2 ev st).pools) := by
  refine ⟨save_pool_absorb, ?_, ?_⟩
  · intro now d t
    simp [save_pool, List.filter_append, List.filter_filter]
  · intro s probe now1 now2 ev st
    by_cases hg : involves_target_token s (pyLower ev.token0) (pyLower ev.token1)
    · simp only [process_pool_event, hg, Bool.not_true, Bool.false_eq_true,
        if_false, send_notification]
      exact save_pool_absorb _ _ _ _
    · simp only [process_pool_event, Bool.not_eq_true'] at hg
      simp [process_pool_event, hg]

/-- C9 counterexample: upserting the same pool twice, at times 5 and then 9,
resets the `discovered_at` column from 5 to 9 — SQLite's `INSERT OR REPLACE`
deletes the conflicting row and re-applies the `DEFAULT CURRENT_TIMESTAMP`,
so a repeated upsert does change `discoveredAt`, refuting the claim. -/
theorem discovered_at_reset_counterexample :
    ((save_pool 5 ⟨"0xp", "0xa", "0xb", 3000, 500⟩ []).map
        (fun r => r.discovered_at) = [5]) ∧
    ((save_pool 9 ⟨"0xp", "0xa", "0xb", 3000, 500⟩
        (save_pool 5 ⟨"0xp", "0xa", "0xb", 3000, 500⟩ [])).map
        (fun r => r.discovered_at) = [9]) := by
  decide

/-- C9 (amended): `discovered_at` is set to the write time when a pool row is
created, and `mark_pool_tradeable` never changes any row's `discovered_at`;
however a repeated upsert of the same address fully replaces the row and
resets `discovered_at` to the time of the re-upsert. -/
theorem discovered_at_creation_and_mark_preserves :
    (∀ (now : Nat) (pool_address : String) (liquidity : Nat) (t : Table),
        (mark_pool_tradeable now pool_address liquidity t).map
            (fun r => r.discovered_at) =
          t.map (fun r => r.discovered_at)) ∧
    (∀ (now : Nat) (d : PoolData) (t : Table) (r : PoolRow),
        r ∈ save_pool now d t → r.address = d.address → r.discovered_at = now) := by
  constructor
  · intro now pool_address liquidity t
    simp only [mark_pool_tradeable, List.map_map]
    apply List.map_congr_left
    intro r _
    by_cases h : r.address = pool_address <;> simp [h]
  · intro now d t r hmem haddr
    rcases List.mem_append.1 hmem with hf | hs
    · have := (List.mem_filter.1 hf).2
      simp only [bne_iff_ne, ne_eq] at this
      exact absurd haddr this
    · rcases List.mem_singleton.1 hs with rfl
      rfl

/-- C9 witness: the amended theorem applied at a concrete input — the single
row written by `save_pool` at time 3 carries `discovered_at = 3`. -/
theorem discovered_at_creation_and_mark_preserves_witness :
    (({ address := "0xp", token0 := "0xa", token1 := "0xb", fee := 3000,
        initial_liquidity := 500, current_liquidity := 500,
        is_tradeable := false, discovered_at := 3, last_checked := 3,
        last_updated := 3 } : PoolRow) ∈
          save_pool 3 ⟨"0xp", "0xa", "0xb", 3000, 500⟩ [] ∧
      ("0xp" : String) = "0xp") ∧
    ({ address := "0xp", token0 := "0xa", token1 := "0xb", fee := 3000,
        initial_liquidity := 500, current_liquidity := 500,
        is_tradeable := false, discovered_at := 3, last_checked := 3,
        last_updated := 3 } : PoolRow).discovered_at = 3 :=
  ⟨⟨by decide, rfl⟩,
    discovered_at_creation_and_mark_preserves.2 3 ⟨"0xp", "0xa", "0xb", 3000, 500⟩
      [] _ (by decide) rfl⟩

/-- C7: a creation event in which neither token matches the configured target
token address under lowercase-normalized comparison is discarded by
`_process_pool_event`: the store is unchanged and no notification is
dispatched (the whole monitor state is returned untouched). -/
theorem irrelevant_event_leaves_state_unchanged (s : Settings)
    (probe : String → Option Nat) (now : Nat) (ev : CreationEvent)
    (st : MonitorState)
    (h0 : pyLower ev.token0 ≠ pyLower s.token_address)
    (h1 : pyLower ev.token1 ≠ pyLower s.token_address) :
    process_pool_event s probe now ev st = st := by
  have hg : involves_target_token s (pyLower ev.token0) (pyLower ev.token1) = false := by
    simp [involves_target_token, pyLower_idem, h0, h1]
  simp [process_pool_event, hg]

/-- C7 witness: a concrete event on two unrelated tokens leaves a concrete
state untouched. -/
theorem irrelevant_event_leaves_state_unchanged_witness :
    (pyLower "0xAAAA" ≠ pyLower "0xTTTT" ∧ pyLower "0xBBBB" ≠ pyLower "0xTTTT") ∧
    process_pool_event ⟨"0xTTTT", 1000⟩ (fun _ => some 5000) 7
        ⟨"0xAAAA", "0xBBBB", 3000, "0xPPPP"⟩ ⟨[], []⟩ = ⟨[], []⟩ :=
  ⟨⟨by decide, by decide⟩,
    irrelevant_event_leaves_state_unchanged ⟨"0xTTTT", 1000⟩ (fun _ => some 5000) 7
      ⟨"0xAAAA", "0xBBBB", 3000, "0xPPPP"⟩ ⟨[], []⟩ (by decide) (by decide)⟩

/-- C3: evaluation of `_process_pool_event` at configured threshold 500 and
probed liquidity 700 (which clears the configured threshold at discovery
time): the dispatched notification is of the tradeable kind
(`liquidity_added`, and none of the discovered kind), but the stored row has
`is_tradeable = false`, because `DatabaseManager.save_pool` computes the flag
from the hard-coded constant 1000 instead of the configured threshold —
exhibiting the divergence between the code and the claim. -/
theorem save_pool_threshold_mismatch :
    ((process_pool_event ⟨"0xtarget", 500⟩ (fun _ => some 700) 11
        ⟨"0xTARGET", "0xother", 3000, "0xPOOL"⟩ ⟨[], []⟩).sent.map
        (fun n => n.notification_type) = ["liquidity_added"]) ∧
    tradeableIn
        (process_pool_event ⟨"0xtarget", 500⟩ (fun _ => some 700) 11
          ⟨"0xTARGET", "0xother", 3000, "0xPOOL"⟩ ⟨[], []⟩).pools
        (pyLower "0xPOOL") = false := by
  decide

end PoolListener

namespace PoolListener

/-! Frame lemmas for the rescan machinery. -/

theorem addrs_mark (now : Nat) (b : String) (liq : Nat) (t : Table) :
    addrs (mark_pool_tradeable now b liq t) = addrs t := by
  simp only [mark_pool_tradeable, addrs, List.map_map]
  apply List.map_congr_left
  intro r _
  by_cases h : r.address = b <;> simp [h]

theorem findRow_mark (now : Nat) (b : String) (liq : Nat) (t : Table) (a : String) :
    findRow (mark_pool_tradeable now b liq t) a =
      (findRow t a).map (fun r =>
        if r.address == b then
          { r with is_tradeable := true, current_liquidity := liq,
                   last_updated := now }
        else r) := by
  unfold findRow mark_pool_tradeable
  rw [List.find?_map]
  have hp : ((fun r : PoolRow => r.address == a) ∘ fun r : PoolRow =>
      if r.address == b then
        { r with is_tradeable := true, current_liquidity := liq,
                 last_updated := now }
      else r) = fun r : PoolRow => r.address == a := by
    funext r
    by_cases h : r.address = b <;> simp [h, Function.comp]
  rw [hp]

theorem findRow_mark_ne (now : Nat) (b : String) (liq : Nat) (t : Table) (a : String)
    (hne : b ≠ a) :
    findRow (mark_pool_tradeable now b liq t) a = findRow t a := by
  rw [findRow_mark]
  cases hf : findRow t a with
  | none => rfl
  | some r =>
    have hra : r.address = a := by
      have := List.find?_some hf
      simpa using this
    have hrb : ¬ (r.address = b) := by
      rw [hra]
      exact fun hh => hne hh.symm
    simp [hrb]

theorem findRow_mark_self (now : Nat) (liq : Nat) (t : Table) (a : String) :
    findRow (mark_pool_tradeable now a liq t) a =
      (findRow t a).map (fun r =>
        { r with is_tradeable := true, current_liquidity := liq,
                 last_updated := now }) := by
  rw [findRow_mark]
  cases hf : findRow t a with
  | none => rfl
  | some r =>
    have hra : r.address = a := by
      have := List.find?_some hf
      simpa using this
    simp [hra]

theorem check_single_pool_suppress (s : Settings) (probe : String → Option Nat)
    (now : Nat) (pd : PoolRow) (st : MonitorState) (h : pd.is_tradeable = true) :
    check_single_pool s probe now pd st = st := by
  simp [check_single_pool, h]

theorem check_single_pool_fail (s : Settings) (probe : String → Option Nat)
    (now : Nat) (pd : PoolRow) (st : MonitorState) (h : probe pd.address = none) :
    check_single_pool s probe now pd st = st := by
  simp [check_single_pool, h, check_pool_liquidity]

theorem check_single_pool_sent (s : Settings) (probe : String → Option Nat)
    (now : Nat) (pd : PoolRow) (st : MonitorState) :
    (check_single_pool s probe now pd st).sent = st.sent := by
  unfold check_single_pool
  by_cases hg :
      ((check_pool_liquidity (probe pd.address) s.min_liquidity_threshold).1 &&
        !pd.is_tradeable) = true
  · simp only [hg, if_true]
  · simp only [Bool.not_eq_true] at hg
    simp [hg]

theorem check_single_pool_frame (s : Settings) (probe : String → Option Nat)
    (now : Nat) (pd : PoolRow) (st : MonitorState) (a : String)
    (hne : pd.address ≠ a) :
    findRow ((check_single_pool s probe now pd st).pools) a = findRow st.pools a ∧
    notifs_for (check_single_pool s probe now pd st) a = notifs_for st a ∧
    addrs (check_single_pool s probe now pd st).pools = addrs st.pools := by
  refine ⟨?_, ?_, ?_⟩
  · unfold check_single_pool
    by_cases hg :
        ((check_pool_liquidity (probe pd.address) s.min_liquidity_threshold).1 &&
          !pd.is_tradeable) = true
    · simp only [hg, if_true]
      exact findRow_mark_ne _ _ _ _ _ hne
    · simp only [Bool.not_eq_true] at hg
      simp [hg]
  · unfold notifs_for
    rw [check_single_pool_sent]
  · unfold check_single_pool
    by_cases hg :
        ((check_pool_liquidity (probe pd.address) s.min_liquidity_threshold).1 &&
          !pd.is_tradeable) = true
    · simp only [hg, if_true]
      exact addrs_mark _ _ _ _
    · simp only [Bool.not_eq_true] at hg
      simp [hg]

theorem addrs_step (s : Settings) (probe : String → Option Nat) (now : Nat)
    (pd : PoolRow) (st : MonitorState) :
    addrs (check_single_pool s probe now pd st).pools = addrs st.pools := by
  unfold check_single_pool
  by_cases hg :
      ((check_pool_liquidity (probe pd.address) s.min_liquidity_threshold).1 &&
        !pd.is_tradeable) = true
  · simp only [hg, if_true]
    exact addrs_mark _ _ _ _
  · simp only [Bool.not_eq_true] at hg
    simp [hg]

theorem addrs_fold (s : Settings) (probe : String → Option Nat) (now : Nat)
    (l : List PoolRow) (st : MonitorState) :
    addrs ((l.foldl (fun acc pd => check_single_pool s probe now pd acc) st).pools) =
      addrs st.pools := by
  induction l generalizing st with
  | nil => rfl
  | cons pd rest ih =>
    simp only [List.foldl_cons]
    exact (ih _).trans (addrs_step s probe now pd st)

theorem addrs_cycle (s : Settings) (probe : String → Option Nat) (now : Nat)
    (st : MonitorState) :
    addrs ((check_existing_pools s probe now st).pools) = addrs st.pools :=
  addrs_fold s probe now _ st

theorem fold_sent (s : Settings) (probe : String → Option Nat) (now : Nat)
    (l : List PoolRow) (st : MonitorState) :
    (l.foldl (fun acc pd => check_single_pool s probe now pd acc) st).sent =
      st.sent := by
  induction l generalizing st with
  | nil => rfl
  | cons pd rest ih =>
    simp only [List.foldl_cons]
    exact (ih _).trans (check_single_pool_sent s probe now pd st)

theorem cycle_sent (s : Settings) (probe : String → Option Nat) (now : Nat)
    (st : MonitorState) :
    (check_existing_pools s probe now st).sent = st.sent :=
  fold_sent s probe now _ st

theorem fold_frame (s : Settings) (probe : String → Option Nat) (now : Nat)
    (l : List PoolRow) (st : MonitorState) (a : String)
    (h : ∀ pd ∈ l, pd.address ≠ a) :
    findRow ((l.foldl (fun acc pd => check_single_pool s probe now pd acc) st).pools) a =
        findRow st.pools a ∧
    notifs_for (l.foldl (fun acc pd => check_single_pool s probe now pd acc) st) a =
        notifs_for st a := by
  induction l generalizing st with
  | nil => exact ⟨rfl, rfl⟩
  | cons pd rest ih =>
    have h1 := check_single_pool_frame s probe now pd st a (h pd (List.mem_cons_self _ _))
    have h2 := ih (check_single_pool s probe now pd st)
      (fun q hq => h q (List.mem_cons_of_mem _ hq))
    simp only [List.foldl_cons]
    exact ⟨h2.1.trans h1.1, h2.2.trans h1.2.1⟩

end PoolListener

namespace PoolListener

/-! Snapshot lemmas: the rescan work list versus the pools table. -/

theorem snapshot_mem_iff (t : Table) (pd : PoolRow) :
    pd ∈ get_non_tradeable_pools t ↔ pd ∈ t ∧ pd.is_tradeable = false := by
  unfold get_non_tradeable_pools
  rw [(List.perm_insertionSort _ _).mem_iff]
  simp [List.mem_filter]

theorem snapshot_addrs_nodup (t : Table) (h : (addrs t).Nodup) :
    ((get_non_tradeable_pools t).map (fun r => r.address)).Nodup := by
  have hperm :
      List.Perm ((get_non_tradeable_pools t).map (fun r => r.address))
        ((t.filter (fun r => !r.is_tradeable)).map (fun r => r.address)) :=
    (List.perm_insertionSort _ _).map _
  rw [hperm.nodup_iff]
  exact ((List.filter_sublist t).map _).nodup h

theorem findRow_of_mem_nodup (t : Table) (h : (addrs t).Nodup) (pd : PoolRow)
    (hm : pd ∈ t) :
    findRow t pd.address = some pd := by
  induction t with
  | nil => cases hm
  | cons r rs ih =>
    rcases List.mem_cons.1 hm with rfl | hm'
    · simp [findRow, List.find?_cons]
    · have hnd' : (addrs rs).Nodup := (List.nodup_cons.1 h).2
      have hni : r.address ∉ addrs rs := (List.nodup_cons.1 h).1
      have hne : ¬ (r.address = pd.address) := by
        intro he
        exact hni (he ▸ List.mem_map_of_mem (fun q => q.address) hm')
      have := ih hnd' hm'
      simpa [findRow, List.find?_cons, hne] using this

theorem findRow_isSome_of_mem (t : Table) (pd : PoolRow) (hm : pd ∈ t) :
    (findRow t pd.address).isSome := by
  unfold findRow
  rw [List.find?_isSome]
  exact ⟨pd, hm, by simp⟩

theorem fold_member_pos (s : Settings) (probe : String → Option Nat) (c_now : Nat)
    (l1 l2 : List PoolRow) (rA : PoolRow) (st : MonitorState) (a : String)
    (h1 : ∀ pd ∈ l1, pd.address ≠ a) (h2 : ∀ pd ∈ l2, pd.address ≠ a)
    (hra : rA.address = a) (hrt : rA.is_tradeable = false)
    (hfind : findRow st.pools a = some rA)
    (hres : (check_pool_liquidity (probe a) s.min_liquidity_threshold).1 = true) :
    findRow (((l1 ++ rA :: l2).foldl
        (fun acc pd => check_single_pool s probe c_now pd acc) st).pools) a =
      some { rA with
              is_tradeable := true
              current_liquidity :=
                (check_pool_liquidity (probe a) s.min_liquidity_threshold).2
              last_updated := c_now } := by
  rw [List.foldl_append, List.foldl_cons]
  have hfr1 := fold_frame s probe c_now l1 st a h1
  set st1 := l1.foldl (fun acc pd => check_single_pool s probe c_now pd acc) st with hst1
  have hguard :
      ((check_pool_liquidity (probe rA.address) s.min_liquidity_threshold).1 &&
        !rA.is_tradeable) = true := by
    rw [hra, hrt, hres]
    rfl
  have hstep :
      check_single_pool s probe c_now rA st1 =
        { st1 with pools := (mark_pool_tradeable c_now rA.address
            (check_pool_liquidity (probe rA.address) s.min_liquidity_threshold).2
            st1.pools) } := by
    unfold check_single_pool
    rw [if_pos hguard]
  rw [hstep]
  have hfr2 := fold_frame s probe c_now l2
    { st1 with pools := (mark_pool_tradeable c_now rA.address
        (check_pool_liquidity (probe rA.address) s.min_liquidity_threshold).2
        st1.pools) } a h2
  rw [hfr2.1]
  show findRow (mark_pool_tradeable c_now rA.address _ st1.pools) a = _
  rw [hra, findRow_mark_self, hfr1.1, hfind]
  simp [hra]

theorem fold_member_neg (s : Settings) (probe : String → Option Nat) (c_now : Nat)
    (l1 l2 : List PoolRow) (rA : PoolRow) (st : MonitorState) (a : String)
    (h1 : ∀ pd ∈ l1, pd.address ≠ a) (h2 : ∀ pd ∈ l2, pd.address ≠ a)
    (hra : rA.address = a)
    (hres : (check_pool_liquidity (probe a) s.min_liquidity_threshold).1 = false) :
    findRow (((l1 ++ rA :: l2).foldl
        (fun acc pd => check_single_pool s probe c_now pd acc) st).pools) a =
      findRow st.pools a ∧
    notifs_for ((l1 ++ rA :: l2).foldl
        (fun acc pd => check_single_pool s probe c_now pd acc) st) a =
      notifs_for st a := by
  rw [List.foldl_append, List.foldl_cons]
  have hfr1 := fold_frame s probe c_now l1 st a h1
  set st1 := l1.foldl (fun acc pd => check_single_pool s probe c_now pd acc) st with hst1
  have hstep : check_single_pool s probe c_now rA st1 = st1 := by
    unfold check_single_pool
    rw [if_neg]
    rw [hra, hres]
    simp
  rw [hstep]
  have hfr2 := fold_frame s probe c_now l2 st1 a h2
  exact ⟨hfr2.1.trans hfr1.1, hfr2.2.trans hfr1.2⟩

end PoolListener

namespace PoolListener

/-- Complete case analysis of one rescan cycle's effect on a fixed address:
either the cycle leaves the row and the notifications for that address
untouched, or the address had a stored non-tradeable row, its probe cleared
the threshold and the row was marked tradeable.  (No notification is ever
dispatched by the rechecker: the `asyncio.create_task` call raises in the
worker thread and is swallowed — see `check_single_pool` and `cycle_sent`.) -/
theorem cycle_cases (s : Settings) (probe : String → Option Nat) (c_now : Nat)
    (st : MonitorState) (a : String) (hnd : (addrs st.pools).Nodup) :
    (findRow ((check_existing_pools s probe c_now st).pools) a = findRow st.pools a ∧
      notifs_for (check_existing_pools s probe c_now st) a = notifs_for st a) ∨
    (∃ rA : PoolRow, findRow st.pools a = some rA ∧ rA.is_tradeable = false ∧
      rA.address = a ∧
      (check_pool_liquidity (probe a) s.min_liquidity_threshold).1 = true ∧
      findRow ((check_existing_pools s probe c_now st).pools) a =
        some { rA with
                is_tradeable := true
                current_liquidity :=
                  (check_pool_liquidity (probe a) s.min_liquidity_threshold).2
                last_updated := c_now }) := by
  rcases hf : findRow st.pools a with _ | r
  · left
    unfold check_existing_pools
    have hh : ∀ pd ∈ get_non_tradeable_pools st.pools, pd.address ≠ a := by
      intro pd hpd he
      have hm := (snapshot_mem_iff st.pools pd).1 hpd
      have hsome := findRow_isSome_of_mem st.pools pd hm.1
      rw [he, hf] at hsome
      exact absurd hsome (by simp)
    have hff := fold_frame s probe c_now (get_non_tradeable_pools st.pools) st a hh
    rw [hf] at hff
    exact hff
  · have hmem : r ∈ st.pools := List.mem_of_find?_eq_some hf
    have hra : r.address = a := by
      have := List.find?_some hf
      simpa using this
    by_cases hrt : r.is_tradeable = true
    · left
      unfold check_existing_pools
      have hh : ∀ pd ∈ get_non_tradeable_pools st.pools, pd.address ≠ a := by
        intro pd hpd he
        have hm := (snapshot_mem_iff st.pools pd).1 hpd
        have hfind_pd := findRow_of_mem_nodup st.pools hnd pd hm.1
        rw [he, hf] at hfind_pd
        have hpd_eq : r = pd := by
          injection hfind_pd
        rw [← hpd_eq] at hm
        rw [hm.2] at hrt
        cases hrt
      have hff := fold_frame s probe c_now (get_non_tradeable_pools st.pools) st a hh
      rw [hf] at hff
      exact hff
    · have hrf : r.is_tradeable = false := by
        cases hb : r.is_tradeable
        · rfl
        · exact absurd hb hrt
      have hrs : r ∈ get_non_tradeable_pools st.pools :=
        (snapshot_mem_iff st.pools r).2 ⟨hmem, hrf⟩
      obtain ⟨l1, l2, hsplit⟩ := List.append_of_mem hrs
      have hunf : check_existing_pools s probe c_now st =
          (l1 ++ r :: l2).foldl (fun acc pd => check_single_pool s probe c_now pd acc) st := by
        unfold check_existing_pools
        rw [hsplit]
      have hnodup := snapshot_addrs_nodup st.pools hnd
      rw [hsplit, List.map_append, List.map_cons] at hnodup
      have hd := List.nodup_append.1 hnodup
      have h1 : ∀ pd ∈ l1, pd.address ≠ a := by
        intro pd hpd he
        refine hd.2.2 (List.mem_map_of_mem (fun q => q.address) hpd) ?_
        rw [he, ← hra]
        exact List.mem_cons_self _ _
      have h2 : ∀ pd ∈ l2, pd.address ≠ a := by
        intro pd hpd he
        have hni := (List.nodup_cons.1 hd.2.1).1
        apply hni
        rw [hra, ← he]
        exact List.mem_map_of_mem (fun q => q.address) hpd
      by_cases hres : (check_pool_liquidity (probe a) s.min_liquidity_threshold).1 = true
      · right
        have hfm := fold_member_pos s probe c_now l1 l2 r st a h1 h2 hra hrf hf hres
        refine ⟨r, rfl, hrf, hra, hres, ?_⟩
        rw [hunf]
        exact hfm
      · left
        have hres' : (check_pool_liquidity (probe a) s.min_liquidity_threshold).1 = false := by
          cases hb : (check_pool_liquidity (probe a) s.min_liquidity_threshold).1
          · rfl
          · exact absurd hb hres
        have hfm := fold_member_neg s probe c_now l1 l2 r st a h1 h2 hra hres'
        rw [← hunf, hf] at hfm
        exact hfm

end PoolListener

namespace PoolListener

/-- C1: the code violates the dispatch half of the claim.  The false-to-true
marking itself is real (and the suppression guard is in place), but the
rechecker never dispatches the tradeable milestone: `_check_single_pool`
preserves the dispatched-notification list on every path (first conjunct —
the `asyncio.create_task` RuntimeError path), and at the concrete failing
input — one stored non-tradeable pool at address `0xp`, threshold 1000, a
recheck probe reading liquidity 2000 — one recheck cycle marks the pool
tradeable yet dispatches zero `liquidity_added` notifications, where the
claim demands exactly one. -/
theorem recheck_transition_never_notifies :
    (∀ (s : Settings) (probe : String → Option Nat) (now : Nat) (pd : PoolRow)
        (st : MonitorState),
        (check_single_pool s probe now pd st).sent = st.sent) ∧
    tradeableIn ((run_recheck_cycles ⟨"0xt", 1000⟩ [⟨fun _ => some 2000, 9⟩]
        (MonitorState.mk [⟨"0xp", "0xa", "0xb", 3000, 500, 500, false, 1, 1, 1⟩]
          [])).pools) "0xp" = true ∧
    tradeable_notifs (run_recheck_cycles ⟨"0xt", 1000⟩ [⟨fun _ => some 2000, 9⟩]
        (MonitorState.mk [⟨"0xp", "0xa", "0xb", 3000, 500, 500, false, 1, 1, 1⟩]
          [])) "0xp" = 0 ∧
    (run_recheck_cycles ⟨"0xt", 1000⟩ [⟨fun _ => some 2000, 9⟩]
        (MonitorState.mk [⟨"0xp", "0xa", "0xb", 3000, 500, 500, false, 1, 1, 1⟩]
          [])).sent = [] :=
  ⟨fun s probe now pd st => check_single_pool_sent s probe now pd st,
    by decide, by decide, by decide⟩

/-- C8: when the liquidity probe for a stored pool fails during a recheck,
nothing is written.  (i) In the monolith, `check_pool_liquidity_with_retry`
exhausts its 3 attempts and raises; the `try`/`except` inside
`check_single_pool` catches it and returns `False` with the whole listener
state — pools table, dispatched notifications, and the `notifications` audit
log — untouched.  (ii) In the modular monitor, the failed probe yields
`(False, 0)`, the tradeability guard is false, and `_check_single_pool`
returns the state untouched.  (iii) At the level of a whole modular recheck
cycle, the failing pool's stored row (hence its `isTradeable` and
`currentLiquidity` fields) and its dispatched notifications are exactly those
from before the cycle. -/
theorem probe_failure_frame :
    (∀ (s : Settings) (outcomes : Nat → Option Nat) (now : Nat) (pd : PL.PoolRow)
        (st : PL.ListenerState), (∀ i, outcomes i = none) →
        PL.check_single_pool s outcomes now pd st = (false, st)) ∧
    (∀ (s : Settings) (probe : String → Option Nat) (now : Nat) (pd : PoolRow)
        (st : MonitorState), probe pd.address = none →
        check_single_pool s probe now pd st = st) ∧
    (∀ (s : Settings) (probe : String → Option Nat) (c_now : Nat)
        (st : MonitorState) (a : String),
        (addrs st.pools).Nodup → probe a = none →
        findRow ((check_existing_pools s probe c_now st).pools) a =
            findRow st.pools a ∧
          notifs_for (check_existing_pools s probe c_now st) a = notifs_for st a) := by
  refine ⟨?_, ?_, ?_⟩
  · intro s outcomes now pd st hfail
    have hretry : PL.check_pool_liquidity_with_retry outcomes
        s.min_liquidity_threshold = Except.error () := by
      unfold PL.check_pool_liquidity_with_retry retryStopAfterAttempt
      simp [retryAux, hfail 0, hfail 1, hfail 2]
    unfold PL.check_single_pool
    rw [hretry]
  · intro s probe now pd st h
    exact check_single_pool_fail s probe now pd st h
  · intro s probe c_now st a hnd hfail
    rcases cycle_cases s probe c_now st a hnd with h | ⟨rA, _, _, _, hres, _⟩
    · exact h
    · rw [hfail] at hres
      simp [check_pool_liquidity] at hres

/-- C8 witness: with a probe that fails on every attempt, the monolith's
single-pool check returns `False` and leaves a concrete listener state
untouched. -/
theorem probe_failure_frame_witness :
    (∀ i : Nat, (fun _ : Nat => (none : Option Nat)) i = none) ∧
    PL.check_single_pool ⟨"0xt", 1000⟩ (fun _ => none) 5
        ⟨"0xp", "0xa", "0xb", 3000, 500, 1, 1, none, false, 0⟩
        ⟨[⟨"0xp", "0xa", "0xb", 3000, 500, 1, 1, none, false, 0⟩], [], []⟩ =
      (false, ⟨[⟨"0xp", "0xa", "0xb", 3000, 500, 1, 1, none, false, 0⟩], [], []⟩) :=
  ⟨fun _ => rfl,
    probe_failure_frame.1 ⟨"0xt", 1000⟩ (fun _ => none) 5
      ⟨"0xp", "0xa", "0xb", 3000, 500, 1, 1, none, false, 0⟩
      ⟨[⟨"0xp", "0xa", "0xb", 3000, 500, 1, 1, none, false, 0⟩], [], []⟩
      (fun _ => rfl)⟩

end PoolListener

namespace PoolListener

/-! Lemmas about the chunked scanner. -/

theorem cursor_writes_cons_query (f t : Nat) (l : List ScanAction) :
    cursor_writes (ScanAction.query f t :: l) = cursor_writes l := rfl

theorem cursor_writes_cons_set (b : Nat) (l : List ScanAction) :
    cursor_writes (ScanAction.setCursor b :: l) = b :: cursor_writes l := rfl

theorem cursor_writes_append (l1 l2 : List ScanAction) :
    cursor_writes (l1 ++ l2) = cursor_writes l1 ++ cursor_writes l2 :=
  List.filterMap_append _ _ _

theorem cursor_writes_events (evs : List CreationEvent) :
    cursor_writes (evs.map ScanAction.processEvt) = [] := by
  induction evs with
  | nil => rfl
  | cons e es ih => exact ih

theorem cursor_after_cons_query (i f t : Nat) (l : List ScanAction) :
    cursor_after i (ScanAction.query f t :: l) = cursor_after i l := rfl

theorem cursor_after_cons_evt (i : Nat) (e : CreationEvent) (l : List ScanAction) :
    cursor_after i (ScanAction.processEvt e :: l) = cursor_after i l := rfl

theorem cursor_after_cons_set (i b : Nat) (l : List ScanAction) :
    cursor_after i (ScanAction.setCursor b :: l) = cursor_after b l := rfl

theorem cursor_after_append (i : Nat) (l1 l2 : List ScanAction) :
    cursor_after i (l1 ++ l2) = cursor_after (cursor_after i l1) l2 :=
  List.foldl_append _ _ _ _

theorem cursor_after_events (i : Nat) (evs : List CreationEvent) :
    cursor_after i (evs.map ScanAction.processEvt) = i := by
  induction evs with
  | nil => rfl
  | cons e es ih => exact ih

theorem chunk_list_chain_aux (cb : Nat) :
    ∀ n fb, cb + 1 - fb ≤ n → fb ≤ cb → ChunkChain cb fb (chunk_list fb cb) := by
  intro n
  induction n with
  | zero =>
    intro fb hle hfb
    omega
  | succ n ih =>
    intro fb hle hfb
    have hK : MAX_BLOCKS_PER_QUERY = 1000 := rfl
    unfold chunk_list
    rw [pyRange_cons _ _ _ (by omega) (by rw [hK]; norm_num)]
    rw [List.map_cons]
    refine ⟨rfl, rfl, hfb, ?_⟩
    by_cases hcase : fb + MAX_BLOCKS_PER_QUERY ≤ cb
    · have hcase' : fb + 1000 ≤ cb := by rw [hK] at hcase; exact hcase
      have hmin : min (fb + MAX_BLOCKS_PER_QUERY - 1) cb =
          fb + MAX_BLOCKS_PER_QUERY - 1 := by
        rw [hK]
        omega
      show ChunkChain cb (min (fb + MAX_BLOCKS_PER_QUERY - 1) cb + 1) _
      rw [hmin]
      have heq : fb + MAX_BLOCKS_PER_QUERY - 1 + 1 = fb + MAX_BLOCKS_PER_QUERY := by
        rw [hK]
        omega
      rw [heq]
      exact ih (fb + MAX_BLOCKS_PER_QUERY) (by rw [hK]; omega) hcase
    · have hcase' : ¬ fb + 1000 ≤ cb := by rw [hK] at hcase; exact hcase
      have hmin : min (fb + MAX_BLOCKS_PER_QUERY - 1) cb = cb := by
        rw [hK]
        omega
      show ChunkChain cb (min (fb + MAX_BLOCKS_PER_QUERY - 1) cb + 1) _
      rw [hmin]
      rw [pyRange_nil _ _ _ (by rw [hK]; omega)]
      show ChunkChain cb (cb + 1) []
      show cb < cb + 1
      omega

theorem chunk_list_chain (cb fb : Nat) (hfb : fb ≤ cb) :
    ChunkChain cb fb (chunk_list fb cb) :=
  chunk_list_chain_aux cb (cb + 1 - fb) fb (Nat.le_refl _) hfb

theorem run_chunks_cursor_writes (s : Settings)
    (ge : Nat → Nat → List CreationEvent) (pr : String → Option Nat) (now : Nat) :
    ∀ (L : List (Nat × Nat)) (st : MonitorState) (c0 : Nat),
      cursor_writes ((run_chunks s ge pr now L st c0).2.2) = L.map (fun c => c.2) := by
  intro L
  induction L with
  | nil => intro st c0; rfl
  | cons c rest ih =>
    intro st c0
    cases c with
    | mk cs ce =>
      show cursor_writes (ScanAction.query cs ce ::
        ((ge cs ce).map ScanAction.processEvt ++ ScanAction.setCursor ce ::
          (run_chunks s ge pr now rest
            (process_events s pr now (ge cs ce) st) ce).2.2)) = _
      rw [cursor_writes_cons_query, cursor_writes_append, cursor_writes_events,
        List.nil_append, cursor_writes_cons_set, List.map_cons]
      congr 1
      exact ih _ ce

theorem run_chunks_final_cursor (s : Settings)
    (ge : Nat → Nat → List CreationEvent) (pr : String → Option Nat) (now cb : Nat) :
    ∀ (L : List (Nat × Nat)) (fb : Nat) (st : MonitorState) (c0 : Nat),
      ChunkChain cb fb L → L ≠ [] →
      (run_chunks s ge pr now L st c0).2.1 = cb := by
  intro L
  induction L with
  | nil => intro fb st c0 _ hne; exact absurd rfl hne
  | cons c rest ih =>
    intro fb st c0 hc _
    cases c with
    | mk cs ce =>
      obtain ⟨hc1, hc2, hc3, hc4⟩ := hc
      have hc2' : ce = min (fb + MAX_BLOCKS_PER_QUERY - 1) cb := hc2
      have hc4' : ChunkChain cb (ce + 1) rest := hc4
      cases rest with
      | nil =>
        have hlt : cb < ce + 1 := hc4'
        have hle : ce ≤ cb := by
          rw [hc2']
          exact Nat.min_le_right _ _
        show ce = cb
        omega
      | cons c2 rest2 =>
        show (run_chunks s ge pr now (c2 :: rest2)
          (process_events s pr now (ge cs ce) st) ce).2.1 = cb
        exact ih (ce + 1) _ ce hc4' (by simp)

theorem run_chunks_chain (cb : Nat) :
    ∀ (L : List (Nat × Nat)) (fb : Nat), ChunkChain cb fb L →
      List.Chain' (· ≤ ·) ((fb - 1) :: L.map (fun c => c.2)) := by
  intro L
  induction L with
  | nil => intro fb _; simp
  | cons c rest ih =>
    intro fb hc
    cases c with
    | mk cs ce =>
      obtain ⟨hc1, hc2, hc3, hc4⟩ := hc
      have hc2' : ce = min (fb + MAX_BLOCKS_PER_QUERY - 1) cb := hc2
      have hc4' : ChunkChain cb (ce + 1) rest := hc4
      have hK : MAX_BLOCKS_PER_QUERY = 1000 := rfl
      have hce : fb - 1 ≤ ce := by
        rw [hc2', hK]
        omega
      have hrest := ih (ce + 1) hc4'
      have hsimp : ce + 1 - 1 = ce := by omega
      rw [hsimp] at hrest
      simp only [List.map_cons]
      exact List.Chain'.cons hce hrest

end PoolListener

namespace PoolListener

theorem split_past_events (evs : List CreationEvent) (rest : List ScanAction) :
    ∀ (t1 t2 : List ScanAction) (x : ScanAction),
      (∀ e, x ≠ ScanAction.processEvt e) →
      evs.map ScanAction.processEvt ++ rest = t1 ++ x :: t2 →
      ∃ t1', t1 = evs.map ScanAction.processEvt ++ t1' ∧ rest = t1' ++ x :: t2 := by
  induction evs with
  | nil =>
    intro t1 t2 x _ h
    exact ⟨t1, by simp, by simpa using h⟩
  | cons e es ih =>
    intro t1 t2 x hx h
    cases t1 with
    | nil =>
      simp only [List.map_cons, List.cons_append, List.nil_append] at h
      injection h with h1 _
      exact absurd h1.symm (hx e)
    | cons y t1' =>
      simp only [List.map_cons, List.cons_append] at h
      injection h with h1 h2
      obtain ⟨t1'', ht1', hrest⟩ := ih t1' t2 x hx h2
      refine ⟨t1'', ?_, hrest⟩
      rw [List.map_cons, List.cons_append, ← h1, ht1']

theorem run_chunks_query_pre (s : Settings)
    (ge : Nat → Nat → List CreationEvent) (pr : String → Option Nat)
    (now cb : Nat) :
    ∀ (L : List (Nat × Nat)) (fb : Nat) (st : MonitorState) (c0 : Nat)
      (t1 t2 : List ScanAction) (cs ce : Nat),
      ChunkChain cb fb L → 1 ≤ fb →
      (run_chunks s ge pr now L st c0).2.2 = t1 ++ ScanAction.query cs ce :: t2 →
      cursor_after (fb - 1) t1 = cs - 1 := by
  intro L
  induction L with
  | nil =>
    intro fb st c0 t1 t2 cs ce _ _ h
    replace h : ([] : List ScanAction) = t1 ++ ScanAction.query cs ce :: t2 := h
    cases t1 <;> simp at h
  | cons c rest ih =>
    intro fb st c0 t1 t2 cs ce hc hfb h
    cases c with
    | mk c1 ce1 =>
      obtain ⟨hc1, hc2, hc3, hc4⟩ := hc
      have hc1' : c1 = fb := hc1
      have hc4' : ChunkChain cb (ce1 + 1) rest := hc4
      replace h : ScanAction.query c1 ce1 ::
          ((ge c1 ce1).map ScanAction.processEvt ++ ScanAction.setCursor ce1 ::
            (run_chunks s ge pr now rest
              (process_events s pr now (ge c1 ce1) st) ce1).2.2) =
          t1 ++ ScanAction.query cs ce :: t2 := h
      cases t1 with
      | nil =>
        simp only [List.nil_append] at h
        injection h with h1 _
        injection h1 with hcs _
        show fb - 1 = cs - 1
        rw [← hcs, hc1']
      | cons y t1' =>
        injection h with h1 h2
        subst h1
        obtain ⟨t1'', ht1', hrest⟩ := split_past_events (ge c1 ce1) _ t1' t2
          (ScanAction.query cs ce) (fun e he => ScanAction.noConfusion he) h2
        subst ht1'
        cases t1'' with
        | nil =>
          simp only [List.nil_append] at hrest
          injection hrest with hh1 _
          exact ScanAction.noConfusion hh1
        | cons z t1''' =>
          injection hrest with hz hrest'
          subst hz
          have hIH := ih (ce1 + 1) (process_events s pr now (ge c1 ce1) st) ce1
            t1''' t2 cs ce hc4' (by omega) hrest'
          rw [cursor_after_cons_query, cursor_after_append, cursor_after_events,
            cursor_after_cons_set]
          exact hIH

theorem run_chunks_set_pre (s : Settings)
    (ge : Nat → Nat → List CreationEvent) (pr : String → Option Nat)
    (now cb : Nat) :
    ∀ (L : List (Nat × Nat)) (fb : Nat) (st : MonitorState) (c0 : Nat)
      (t1 t2 : List ScanAction) (b : Nat),
      ChunkChain cb fb L →
      (run_chunks s ge pr now L st c0).2.2 = t1 ++ ScanAction.setCursor b :: t2 →
      ∃ t0 cs, t1 = t0 ++ ScanAction.query cs b ::
        (ge cs b).map ScanAction.processEvt := by
  intro L
  induction L with
  | nil =>
    intro fb st c0 t1 t2 b _ h
    replace h : ([] : List ScanAction) = t1 ++ ScanAction.setCursor b :: t2 := h
    cases t1 <;> simp at h
  | cons c rest ih =>
    intro fb st c0 t1 t2 b hc h
    cases c with
    | mk c1 ce1 =>
      obtain ⟨hc1, hc2, hc3, hc4⟩ := hc
      have hc4' : ChunkChain cb (ce1 + 1) rest := hc4
      replace h : ScanAction.query c1 ce1 ::
          ((ge c1 ce1).map ScanAction.processEvt ++ ScanAction.setCursor ce1 ::
            (run_chunks s ge pr now rest
              (process_events s pr now (ge c1 ce1) st) ce1).2.2) =
          t1 ++ ScanAction.setCursor b :: t2 := h
      cases t1 with
      | nil =>
        simp only [List.nil_append] at h
        injection h with h1 _
        exact ScanAction.noConfusion h1
      | cons y t1' =>
        injection h with h1 h2
        subst h1
        obtain ⟨t1'', ht1', hrest⟩ := split_past_events (ge c1 ce1) _ t1' t2
          (ScanAction.setCursor b) (fun e he => ScanAction.noConfusion he) h2
        subst ht1'
        cases t1'' with
        | nil =>
          simp only [List.nil_append] at hrest
          injection hrest with hh1 _
          injection hh1 with hb
          subst hb
          exact ⟨[], c1, by simp⟩
        | cons z t1''' =>
          injection hrest with hz hrest'
          subst hz
          obtain ⟨t0', cs, ht⟩ := ih (ce1 + 1) (process_events s pr now (ge c1 ce1) st)
            ce1 t1''' t2 b hc4' hrest'
          refine ⟨ScanAction.query c1 ce1 ::
            ((ge c1 ce1).map ScanAction.processEvt ++ ScanAction.setCursor ce1 :: t0'),
            cs, ?_⟩
          rw [ht]
          simp [List.cons_append, List.append_assoc]

theorem check_new_pools_run (s : Settings)
    (ge : Nat → Nat → List CreationEvent) (pr : String → Option Nat)
    (now cb : Nat) (st : MonitorState) (latest : Nat) (h : latest < cb) :
    ∃ L, ChunkChain cb (latest + 1) L ∧ L ≠ [] ∧
      check_new_pools s ge pr now cb st latest = run_chunks s ge pr now L st latest := by
  have hK : MAX_BLOCKS_PER_QUERY = 1000 := rfl
  have h1 : ¬ cb ≤ latest := by omega
  by_cases hbig : cb - (latest + 1) + 1 > MAX_BLOCKS_PER_QUERY
  · refine ⟨chunk_list (latest + 1) cb, chunk_list_chain cb (latest + 1) (by omega),
      ?_, ?_⟩
    · unfold chunk_list
      rw [pyRange_cons _ _ _ (by omega) (by rw [hK]; norm_num)]
      simp
    · simp only [check_new_pools, gt_iff_lt]
      rw [if_neg h1, if_pos (by exact hbig)]
  · refine ⟨[(latest + 1, cb)], ?_, by simp, ?_⟩
    · refine ⟨rfl, ?_, by omega, ?_⟩
      · show cb = min (latest + 1 + MAX_BLOCKS_PER_QUERY - 1) cb
        rw [hK]
        rw [hK] at hbig
        omega
      · show cb < cb + 1
        omega
    · simp only [check_new_pools, gt_iff_lt]
      rw [if_neg h1, if_neg (by exact hbig)]
      rfl

end PoolListener

namespace PoolListener

/-- C4: for a scan with pending range `[latest+1, current_block]`, the trace of
`_check_new_pools` satisfies: (i) the sequence of cursor assignments, starting
from the old cursor, is monotonically non-decreasing; (ii) the final cursor
equals the range's upper bound `current_block` (the latest block height read
at cycle start); (iii) whenever a chunk `[cs, ce]` is queried, the cursor at
that moment is already `cs - 1` — every earlier chunk was completed and the
cursor advanced to its end before the next chunk's query; (iv) every cursor
assignment to a value `b` is immediately preceded by the query of the chunk
ending at `b` followed by the processing of every one of that chunk's events;
and (v) unconditionally (no-op scans included), the cursor never decreases. -/
theorem scan_cursor_advance_protocol (s : Settings)
    (getEvents : Nat → Nat → List CreationEvent) (probe : String → Option Nat)
    (now current_block latest : Nat) (st : MonitorState)
    (h : latest < current_block) :
    List.Chain' (· ≤ ·) (latest :: cursor_writes
        (check_new_pools s getEvents probe now current_block st latest).2.2) ∧
    (check_new_pools s getEvents probe now current_block st latest).2.1 =
      current_block ∧
    (∀ (t1 : List ScanAction) (cs ce : Nat) (t2 : List ScanAction),
      (check_new_pools s getEvents probe now current_block st latest).2.2 =
        t1 ++ ScanAction.query cs ce :: t2 →
      cursor_after latest t1 = cs - 1) ∧
    (∀ (t1 : List ScanAction) (b : Nat) (t2 : List ScanAction),
      (check_new_pools s getEvents probe now current_block st latest).2.2 =
        t1 ++ ScanAction.setCursor b :: t2 →
      ∃ t0 cs, t1 = t0 ++ ScanAction.query cs b ::
        (getEvents cs b).map ScanAction.processEvt) ∧
    (∀ (cb2 lat2 : Nat) (st2 : MonitorState),
      lat2 ≤ (check_new_pools s getEvents probe now cb2 st2 lat2).2.1) := by
  obtain ⟨L, hchain, hne, heq⟩ :=
    check_new_pools_run s getEvents probe now current_block st latest h
  rw [heq]
  refine ⟨?_, ?_, ?_, ?_, ?_⟩
  · rw [run_chunks_cursor_writes]
    exact run_chunks_chain current_block L (latest + 1) hchain
  · exact run_chunks_final_cursor s getEvents probe now current_block L
      (latest + 1) st latest hchain hne
  · intro t1 cs ce t2 hsplit
    exact run_chunks_query_pre s getEvents probe now current_block L (latest + 1)
      st latest t1 t2 cs ce hchain (by omega) hsplit
  · intro t1 b t2 hsplit
    exact run_chunks_set_pre s getEvents probe now current_block L (latest + 1)
      st latest t1 t2 b hchain hsplit
  · intro cb2 lat2 st2
    by_cases hcb : cb2 ≤ lat2
    · simp [check_new_pools, hcb]
    · obtain ⟨L2, hch2, hne2, heq2⟩ :=
        check_new_pools_run s getEvents probe now cb2 st2 lat2 (by omega)
      rw [heq2, run_chunks_final_cursor s getEvents probe now cb2 L2 (lat2 + 1)
        st2 lat2 hch2 hne2]
      omega

/-- C4 witness: the protocol applied to a concrete 2500-block pending range
starting from cursor 0. -/
theorem scan_cursor_advance_protocol_witness :
    (0 : Nat) < 2500 ∧
    (List.Chain' (· ≤ ·) (0 :: cursor_writes
        (check_new_pools ⟨"0xt", 1000⟩ (fun _ _ => []) (fun _ => none) 0 2500
          ⟨[], []⟩ 0).2.2) ∧
      (check_new_pools ⟨"0xt", 1000⟩ (fun _ _ => []) (fun _ => none) 0 2500
          ⟨[], []⟩ 0).2.1 = 2500 ∧
      (∀ (t1 : List ScanAction) (cs ce : Nat) (t2 : List ScanAction),
        (check_new_pools ⟨"0xt", 1000⟩ (fun _ _ => []) (fun _ => none) 0 2500
            ⟨[], []⟩ 0).2.2 = t1 ++ ScanAction.query cs ce :: t2 →
        cursor_after 0 t1 = cs - 1) ∧
      (∀ (t1 : List ScanAction) (b : Nat) (t2 : List ScanAction),
        (check_new_pools ⟨"0xt", 1000⟩ (fun _ _ => []) (fun _ => none) 0 2500
            ⟨[], []⟩ 0).2.2 = t1 ++ ScanAction.setCursor b :: t2 →
        ∃ t0 cs, t1 = t0 ++ ScanAction.query cs b ::
          (((fun _ _ => []) : Nat → Nat → List CreationEvent) cs b).map
            ScanAction.processEvt) ∧
      (∀ (cb2 lat2 : Nat) (st2 : MonitorState),
        lat2 ≤ (check_new_pools ⟨"0xt", 1000⟩ (fun _ _ => []) (fun _ => none) 0
            cb2 st2 lat2).2.1)) :=
  ⟨by decide,
    scan_cursor_advance_protocol ⟨"0xt", 1000⟩ (fun _ _ => []) (fun _ => none) 0
      2500 0 ⟨[], []⟩ (by decide)⟩

/-- C5: over a pending range of 2,500 blocks with chunk size 1,000 (cursor 0,
head block 2500), the scanner issues exactly 3 chunk queries, in this order,
covering `[1,1000]`, `[1001,2000]`, `[2001,2500]` — the `queries` projection
lists them in execution order. -/
theorem chunked_scan_2500_blocks :
    queries (check_new_pools ⟨"0xt", 1000⟩ (fun _ _ => []) (fun _ => none) 0 2500
        ⟨[], []⟩ 0).2.2 = [(1, 1000), (1001, 2000), (2001, 2500)] := by
  have h1 : pyRange 1 2501 1000 = 1 :: pyRange 1001 2501 1000 :=
    pyRange_cons _ _ _ (by norm_num) (by norm_num)
  have h2 : pyRange 1001 2501 1000 = 1001 :: pyRange 2001 2501 1000 :=
    pyRange_cons _ _ _ (by norm_num) (by norm_num)
  have h3 : pyRange 2001 2501 1000 = 2001 :: pyRange 3001 2501 1000 :=
    pyRange_cons _ _ _ (by norm_num) (by norm_num)
  have h4 : pyRange 3001 2501 1000 = [] := pyRange_nil _ _ _ (by norm_num)
  simp only [check_new_pools, chunk_list, MAX_BLOCKS_PER_QUERY, h1, h2, h3, h4]
  decide

end PoolListener
